import Mathlib

/-!
Shallow embedding of the project-management server's membership, invite and
issue-workflow logic (src/controller/projectController.js, the issue controller,
src/middleware/projectMiddleware.js, and the Project schema pre-save hook), with
theorems checking the specification's claims about it.

Conventions of the embedding:
* Mongo ObjectIds are modelled as `String`; all the `toString()` comparisons of
  the source become string equality.
* `req.body` fields that the source probes with JavaScript truthiness
  (`x || d`, `if (x)`) are modelled as `Option String` with the helpers
  `jsOr` / `jsTruthy`, which treat the empty string as falsy exactly as
  JavaScript does; fields probed with `x !== undefined` are modelled as a
  nested `Option (Option _)` (outer `none` = key absent, `some none` = null).
* Dates are milliseconds since the epoch (`Nat`).
* Each handler that mutates state is a function returning
  `Except Err _ × <state>`: the first component is the HTTP outcome
  (error = `res.status(...)` + thrown message), the second is the state as
  persisted after the call (unchanged when the handler throws before saving).
* Every `project.save()` goes through `saveProject`, which applies the
  ProjectSchema `pre("save")` hook.
-/

namespace PMServer

/-- An HTTP-level failure: the status code set by `res.status(...)` and the
thrown error message. -/
structure Err where
  status : Nat
  msg : String
deriving DecidableEq, Repr

/-- A pending invitation entry of `ProjectSchema.pendingInvites`. -/
structure Invite where
  email : String
  role : String
  invitedBy : String
  token : String
  expiresAt : Nat
deriving DecidableEq, Repr

/-- A Project document (src/models/Project.js). -/
structure Project where
  id : String
  name : String
  description : String
  key : String
  owner : String
  member : List String
  pendingInvites : List Invite
deriving DecidableEq, Repr

/-- An Issue document (src/models/Issue.js). -/
structure Issue where
  id : String
  key : String
  title : String
  description : String
  status : String
  priority : String
  reporter : String
  assignee : Option String
  projectId : String
  tags : List String
  dueDate : Option Nat
  attachments : List String
  comments : List String
deriving DecidableEq, Repr

/-- A Comment document (src/models/Comment.js), restricted to the fields the
cascade logic reads. -/
structure Comment where
  id : String
  author : String
  issueId : String
  attachment : List String
deriving DecidableEq, Repr

/-- An Attachment document, restricted to the fields the cascade logic reads. -/
structure Attachment where
  id : String
  uploadedBy : String
deriving DecidableEq, Repr

/-- The authenticated user injected by the auth middleware (`req.user`). -/
structure UserCtx where
  id : String
  email : String
deriving DecidableEq, Repr

/-- The issue/comment/attachment collections touched by the delete cascades. -/
structure Store where
  issues : List Issue
  comments : List Comment
  attachments : List Attachment
deriving DecidableEq, Repr

/-- `key.toUpperCase()` of the source, modelled structurally over the
character list so that it evaluates inside the kernel. -/
def jsToUpper (s : String) : String := ⟨s.data.map Char.toUpper⟩

/-- JavaScript `v || d` for an optional string body field: the empty string is
falsy, so it falls through to the default, exactly as in the source. -/
def jsOr (v : Option String) (d : String) : String :=
  match v with
  | some s => if s = "" then d else s
  | none => d

/-- JavaScript truthiness of an optional string body field (`if (x)`). -/
def jsTruthy : Option String → Bool
  | some s => s ≠ ""
  | none => false

/-- JavaScript `a || b` on two optional string fields
(`assigneeId || assignee` in `assignIssue`). -/
def jsOrOpt (a b : Option String) : Option String :=
  if jsTruthy a then a else b

/-- JavaScript truthiness of a present-or-null-or-string body field
(`if (assignee)` in `updateIssue`, where `assignee` may be absent, null, or a
string). -/
def jsTruthyNested : Option (Option String) → Bool
  | some (some s) => s ≠ ""
  | _ => false

/-- The string carried by a present-or-null-or-string field (meaningful when
`jsTruthyNested` holds). -/
def nestedVal (v : Option (Option String)) : String :=
  (v.getD none).getD ""

/-- JavaScript `dueDate || null` on a numeric date: `0` is falsy. -/
def jsOrNullNat : Option Nat → Option Nat
  | some d => if d = 0 then none else some d
  | none => none

/-- The ProjectSchema `pre("save")` hook (src/models/Project.js): if the owner
is not in the member list, `unshift` the owner onto it.  Every persisted
project state in this file is produced through this function. -/
def saveProject (p : Project) : Project :=
  if p.member.contains p.owner then p
  else { p with member := p.owner :: p.member }

/-- `createProject` (projectController.js): reject a duplicate (upper-cased)
key with 400, otherwise create the project with the caller as owner and sole
initial member.  `existingKeys` stands for the keys already in the store. -/
def createProject (existingKeys : List String) (caller : UserCtx)
    (pid nm ds ky : String) : Except Err Project :=
  if existingKeys.contains (jsToUpper ky) then
    .error ⟨400, "Project with this key already exists"⟩
  else
    .ok (saveProject
      { id := pid, name := nm, description := ds, key := jsToUpper ky,
        owner := caller.id, member := [caller.id], pendingInvites := [] })

/-- `updateProject` (projectController.js): owner-only; re-check key
uniqueness (against `otherKeys`, the keys of the other stored projects) when
the key is being changed; `||`-style partial update of name/description/key;
save. -/
def updateProject (p : Project) (caller : UserCtx) (otherKeys : List String)
    (nm ds ky : Option String) : Except Err Project × Project :=
  if p.owner ≠ caller.id then
    (.error ⟨403, "Access denied - Only project owner can update project"⟩, p)
  else if jsTruthy ky && (jsToUpper (ky.getD "") != p.key)
          && otherKeys.contains (jsToUpper (ky.getD "")) then
    (.error ⟨400, "Project with this key already exists"⟩, p)
  else
    let p' := saveProject
      { p with
        name := jsOr nm p.name,
        description := jsOr ds p.description,
        key := if jsTruthy ky then jsToUpper (ky.getD "") else p.key }
    (.ok p', p')

/-- A fresh pending-invite entry as built by `inviteMember`: 7-day expiry in
milliseconds from `now`. -/
def mkInvite (email role invitedBy token : String) (now : Nat) : Invite :=
  ⟨email, role, invitedBy, token, now + 7 * 24 * 60 * 60 * 1000⟩

/-- `inviteMember` (projectController.js): owner-only; reject an email that
belongs to an existing member (`existingUser` is the id found by
`User.findOne({email})`, if any) or that already has a pending invite; append
the invite and save; then attempt the email send (`emailOk`), and on failure
filter the invite back out, save again, and surface a 500. -/
def inviteMember (p : Project) (caller : UserCtx) (email : String)
    (role : Option String) (existingUser : Option String) (token : String)
    (now : Nat) (emailOk : Bool) : Except Err Unit × Project :=
  if p.owner ≠ caller.id then
    (.error ⟨403, "Access denied - Only project owner can invite members"⟩, p)
  else if (match existingUser with
           | some uid => p.member.contains uid
           | none => false) then
    (.error ⟨400, "User is already a member of this project"⟩, p)
  else if (p.pendingInvites.find? (fun inv => inv.email == email)).isSome then
    (.error ⟨400, "Invitation already sent to this email"⟩, p)
  else
    let p1 := saveProject
      { p with pendingInvites :=
          p.pendingInvites ++ [mkInvite email (jsOr role "developer") caller.id token now] }
    if emailOk then
      (.ok (), p1)
    else
      let p2 := saveProject
        { p1 with pendingInvites := p1.pendingInvites.filter (fun inv => inv.token ≠ token) }
      (.error ⟨500, "Failed to send invitation email"⟩, p2)

/-- `acceptInvitation` (projectController.js).  The `findOne` query puts the
token match and the `expiresAt > now` bound in two separate array conditions
(no `$elemMatch`), so the project is found when some invite carries the token
and some (possibly other) invite is unexpired; then the first invite with the
token is taken, its email compared against the caller's, the caller pushed
onto the member list if absent, the token's invites filtered out, and the
project saved. -/
def acceptInvitation (p : Project) (u : UserCtx) (token : String) (now : Nat) :
    Except Err Project × Project :=
  if (p.pendingInvites.any (fun inv => inv.token == token))
      && (p.pendingInvites.any (fun inv => decide (now < inv.expiresAt))) then
    match p.pendingInvites.find? (fun inv => inv.token == token) with
    | none => (.error ⟨400, "Invalid or expired invitation token"⟩, p)
    | some invite =>
      if invite.email ≠ u.email then
        (.error ⟨403, "This invitation is not for your email address"⟩, p)
      else
        let m1 := if p.member.contains u.id then p.member else p.member ++ [u.id]
        let p' := saveProject
          { p with member := m1,
                   pendingInvites := p.pendingInvites.filter (fun inv => inv.token ≠ token) }
        (.ok p', p')
  else
    (.error ⟨400, "Invalid or expired invitation token"⟩, p)

/-- `removeMember` (projectController.js): owner-only; the owner cannot remove
themselves; 404 when the target is not in the member list; otherwise splice
the target out and save. -/
def removeMember (p : Project) (caller : UserCtx) (memberId : String) :
    Except Err Unit × Project :=
  if p.owner ≠ caller.id then
    (.error ⟨403, "Access denied - Only project owner can remove members"⟩, p)
  else if memberId = caller.id then
    (.error ⟨400, "Project owner cannot remove themselves"⟩, p)
  else
    match p.member.findIdx? (fun m => m == memberId) with
    | none => (.error ⟨404, "Member not found in this project"⟩, p)
    | some i =>
      let p' := saveProject { p with member := p.member.eraseIdx i }
      (.ok (), p')

/-- `createIssue` (issue controller): member-only; a truthy assignee must be a
project member (400 otherwise); the key is `"{project.key}-{N+1}"` with `N`
the count of stored issues under this project; the new issue is appended to
the issue collection. -/
def createIssue (p : Project) (caller : UserCtx) (ttl ds : String)
    (priority assignee : Option String) (tags : Option (List String))
    (dueDate : Option Nat) (issues : List Issue) (newId : String) :
    Except Err Issue × List Issue :=
  if !(p.member.contains caller.id) then
    (.error ⟨403, "Access denied - Not a project member"⟩, issues)
  else if jsTruthy assignee && !(p.member.contains (assignee.getD "")) then
    (.error ⟨400, "Assignee must be a project member"⟩, issues)
  else
    let n := (issues.filter (fun i => i.projectId == p.id)).length
    let issue : Issue :=
      { id := newId,
        key := p.key ++ "-" ++ toString (n + 1),
        title := ttl,
        description := ds,
        status := "todo",
        priority := jsOr priority "medium",
        reporter := caller.id,
        assignee := if jsTruthy assignee then some (assignee.getD "") else none,
        projectId := p.id,
        tags := tags.getD [],
        dueDate := jsOrNullNat dueDate,
        attachments := [],
        comments := [] }
    (.ok issue, issues ++ [issue])

/-- `updateIssue` (issue controller): member-only, then owner/reporter/assignee
only; a truthy new assignee must be a project member (400); partial update
with `||`-semantics for title/description/status/priority and
presence-of-key semantics for assignee/tags/dueDate. -/
def updateIssue (p : Project) (issue : Issue) (caller : UserCtx)
    (ttl ds stat prio : Option String) (assignee : Option (Option String))
    (tags : Option (List String)) (dueDate : Option (Option Nat)) :
    Except Err Issue × Issue :=
  if !(p.member.contains caller.id) then
    (.error ⟨403, "Access denied - Not a project member"⟩, issue)
  else if !(p.owner == caller.id || issue.reporter == caller.id
              || issue.assignee == some caller.id) then
    (.error ⟨403,
      "Access denied - Only project owner, reporter, or assignee can update this issue"⟩,
      issue)
  else if jsTruthyNested assignee && !(p.member.contains (nestedVal assignee)) then
    (.error ⟨400, "Assignee must be a project member"⟩, issue)
  else
    let issue' :=
      { issue with
        title := jsOr ttl issue.title,
        description := jsOr ds issue.description,
        status := jsOr stat issue.status,
        priority := jsOr prio issue.priority,
        assignee := match assignee with | some v => v | none => issue.assignee,
        tags := match tags with | some t => t | none => issue.tags,
        dueDate := match dueDate with | some d => d | none => issue.dueDate }
    (.ok issue', issue')

/-- `assignIssue` (issue controller): member-only; the target
(`assigneeId || assignee`), when truthy, must be a project member (400);
otherwise the assignee becomes the target or null. -/
def assignIssue (p : Project) (issue : Issue) (caller : UserCtx)
    (assigneeId assignee : Option String) : Except Err Issue × Issue :=
  let targetAssignee := jsOrOpt assigneeId assignee
  if !(p.member.contains caller.id) then
    (.error ⟨403, "Access denied - Not a project member"⟩, issue)
  else if jsTruthy targetAssignee && !(p.member.contains (targetAssignee.getD "")) then
    (.error ⟨400, "Assignee must be a project member"⟩, issue)
  else
    let issue' :=
      { issue with
        assignee := if jsTruthy targetAssignee then some (targetAssignee.getD "") else none }
    (.ok issue', issue')

/-- `updateIssueStatus` (issue controller): 403 unless the caller is the
current assignee; 400 unless the status is one of the three enum values;
otherwise set the status. -/
def updateIssueStatus (issue : Issue) (caller : UserCtx) (stat : String) :
    Except Err Issue × Issue :=
  match issue.assignee with
  | none =>
    (.error ⟨403, "Access denied - Only the assignee can update the status"⟩, issue)
  | some a =>
    if a ≠ caller.id then
      (.error ⟨403, "Access denied - Only the assignee can update the status"⟩, issue)
    else if !(["todo", "inprogress", "done"].contains stat) then
      (.error ⟨400, "Invalid status value"⟩, issue)
    else
      let issue' := { issue with status := stat }
      (.ok issue', issue')

/-- `deleteIssue` (issue controller): owner-or-reporter only, with no
membership precondition; on success delete every Comment with this issueId,
every Attachment whose id is in `issue.attachments`, and the issue itself. -/
def deleteIssue (p : Project) (issue : Issue) (caller : UserCtx) (st : Store) :
    Except Err Unit × Store :=
  if !(p.owner == caller.id || issue.reporter == caller.id) then
    (.error ⟨403,
      "Access denied - Only project owner or issue reporter can delete this issue"⟩, st)
  else
    (.ok (),
      { issues := st.issues.filter (fun i => i.id ≠ issue.id),
        comments := st.comments.filter (fun c => c.issueId ≠ issue.id),
        attachments := st.attachments.filter (fun a => ¬ issue.attachments.contains a.id) })

/-- `checkIssuePermission` (projectMiddleware.js): membership first, then, for
any non-GET method, the owner/reporter/assignee actor predicate. -/
def checkIssuePermission (p : Project) (issue : Issue) (caller : UserCtx)
    (method : String) : Except Err Unit :=
  if !(p.member.contains caller.id) then
    .error ⟨403, "Access denied - Not a project member"⟩
  else if method == "GET" then
    .ok ()
  else if !(p.owner == caller.id || issue.reporter == caller.id
              || issue.assignee == some caller.id) then
    .error ⟨403,
      "Access denied - Only project owner, reporter, or assignee can modify this issue"⟩
  else
    .ok ()

/-- `checkIssueDeletePermission` (projectMiddleware.js): owner-or-reporter,
with no membership check at all. -/
def checkIssueDeletePermission (p : Project) (issue : Issue) (caller : UserCtx) :
    Except Err Unit :=
  if !(p.owner == caller.id || issue.reporter == caller.id) then
    .error ⟨403,
      "Access denied - Only project owner or issue reporter can delete this issue"⟩
  else
    .ok ()

/-- The deployed `PUT /api/issues/:id/assign` pipeline (issueRoutes.js):
`checkIssuePermission` runs before `assignIssue`, so a request denied by the
middleware never reaches the controller. -/
def assignIssueRoute (p : Project) (issue : Issue) (caller : UserCtx)
    (assigneeId assignee : Option String) : Except Err Issue × Issue :=
  match checkIssuePermission p issue caller "PUT" with
  | .error e => (.error e, issue)
  | .ok _ => assignIssue p issue caller assigneeId assignee

/-- Decidable equality on `Except`, so that concrete handler outcomes can be
checked by `decide`. -/
instance {e a : Type} [DecidableEq e] [DecidableEq a] : DecidableEq (Except e a) := fun x y =>
  match x, y with
  | .ok v, .ok w =>
    if h : v = w then isTrue (by rw [h]) else isFalse (by intro hc; cases hc; exact h rfl)
  | .error v, .error w =>
    if h : v = w then isTrue (by rw [h]) else isFalse (by intro hc; cases hc; exact h rfl)
  | .ok _, .error _ => isFalse (by intro hc; cases hc)
  | .error _, .ok _ => isFalse (by intro hc; cases hc)

/-- The project-level invariant of the spec: the owner appears in the member
list. -/
def ownerIsMember (q : Project) : Prop := q.member.contains q.owner = true

instance (q : Project) : Decidable (ownerIsMember q) := by
  unfold ownerIsMember; infer_instance

/-! ## Helper lemmas -/

theorem saveProject_ownerIsMember (q : Project) : ownerIsMember (saveProject q) := by
  unfold ownerIsMember saveProject
  split
  · next h => exact h
  · next h => simp

theorem saveProject_pendingInvites (q : Project) :
    (saveProject q).pendingInvites = q.pendingInvites := by
  unfold saveProject; split <;> rfl

theorem saveProject_owner (q : Project) : (saveProject q).owner = q.owner := by
  unfold saveProject; split <;> rfl

/-! ## Claims -/

/-- C1: for every Project, the owner is a member immediately after creation
and after every save: `createProject` starts the member list with the owner,
the pre-save hook (`saveProject`) re-inserts an absent owner, and each of
`updateProject`, `inviteMember`, `acceptInvitation`, `removeMember` persists
only through that hook, so none of them can produce a saved project whose
owner is not a member. -/
theorem project_owner_in_members
    (existingKeys otherKeys : List String) (creator caller : UserCtx)
    (pid nm ds ky : String) (p : Project) (onm ods oky : Option String)
    (email : String) (role : Option String) (exUser : Option String)
    (tok : String) (now : Nat) (emailOk : Bool) (memberId : String)
    (hp : ownerIsMember p) :
    (∀ q, ownerIsMember (saveProject q)) ∧
    (∀ p', createProject existingKeys creator pid nm ds ky = .ok p' → ownerIsMember p') ∧
    ownerIsMember (updateProject p caller otherKeys onm ods oky).2 ∧
    ownerIsMember (inviteMember p caller email role exUser tok now emailOk).2 ∧
    ownerIsMember (acceptInvitation p caller tok now).2 ∧
    ownerIsMember (removeMember p caller memberId).2 := by
  refine ⟨saveProject_ownerIsMember, ?_, ?_, ?_, ?_, ?_⟩
  · intro p' h
    unfold createProject at h
    split at h
    · cases h
    · cases h; exact saveProject_ownerIsMember _
  · unfold updateProject
    split
    · exact hp
    · split
      · exact hp
      · exact saveProject_ownerIsMember _
  · unfold inviteMember
    split
    · exact hp
    · split
      · exact hp
      · split
        · exact hp
        · by_cases hb : emailOk <;> simp only [hb, if_true, if_false] <;>
            exact saveProject_ownerIsMember _
  · unfold acceptInvitation
    split
    · split
      · exact hp
      · split
        · exact hp
        · exact saveProject_ownerIsMember _
    · exact hp
  · unfold removeMember
    split
    · exact hp
    · split
      · exact hp
      · split
        · exact hp
        · exact saveProject_ownerIsMember _

/-- Witness for C1 at a concrete project: the invariant holds of the input
state and is preserved by a concrete `removeMember` call. -/
theorem project_owner_in_members_witness :
    ownerIsMember (⟨"p1", "N", "D", "K", "o", ["o", "m"], []⟩ : Project) ∧
    ownerIsMember (removeMember ⟨"p1", "N", "D", "K", "o", ["o", "m"], []⟩
      ⟨"o", "o@x"⟩ "m").2 :=
  ⟨by decide,
   (project_owner_in_members [] [] ⟨"u", "u@x"⟩ ⟨"o", "o@x"⟩ "p" "N" "D" "k"
      ⟨"p1", "N", "D", "K", "o", ["o", "m"], []⟩ none none none "b@x" none none
      "tok" 0 true "m" (by decide)).2.2.2.2.2⟩

/-- C2: each of `createIssue`, `updateIssue`, `assignIssue`, when given a
truthy (non-null) assignee, checks that the target is a current member of
`project.member` and fails with BadRequest, leaving the stored state
unchanged, when it is not; consequently an issue those operations produce
with a non-null assignee has that assignee in the member list at the time of
the call. -/
theorem assignee_member_checked
    (p : Project) (issue : Issue) (caller : UserCtx)
    (ttl ds : String) (priority assignee : Option String)
    (tags : Option (List String)) (dueDate : Option Nat)
    (issues : List Issue) (newId : String)
    (uttl uds ustat uprio : Option String) (uassignee : Option (Option String))
    (utags : Option (List String)) (udue : Option (Option Nat))
    (aId aBody : Option String) :
    (caller.id ∈ p.member → jsTruthy assignee = true →
      assignee.getD "" ∉ p.member →
      createIssue p caller ttl ds priority assignee tags dueDate issues newId
        = (.error ⟨400, "Assignee must be a project member"⟩, issues)) ∧
    (∀ iss, (createIssue p caller ttl ds priority assignee tags dueDate issues newId).1
        = .ok iss → ∀ a, iss.assignee = some a → a ∈ p.member) ∧
    (caller.id ∈ p.member →
      (p.owner == caller.id || issue.reporter == caller.id
        || issue.assignee == some caller.id) = true →
      jsTruthyNested uassignee = true →
      nestedVal uassignee ∉ p.member →
      updateIssue p issue caller uttl uds ustat uprio uassignee utags udue
        = (.error ⟨400, "Assignee must be a project member"⟩, issue)) ∧
    (∀ iss, (updateIssue p issue caller uttl uds ustat uprio uassignee utags udue).1
        = .ok iss → jsTruthyNested uassignee = true →
      iss.assignee = some (nestedVal uassignee) ∧ nestedVal uassignee ∈ p.member) ∧
    (caller.id ∈ p.member →
      jsTruthy (jsOrOpt aId aBody) = true →
      (jsOrOpt aId aBody).getD "" ∉ p.member →
      assignIssue p issue caller aId aBody
        = (.error ⟨400, "Assignee must be a project member"⟩, issue)) ∧
    (∀ iss, (assignIssue p issue caller aId aBody).1 = .ok iss →
      ∀ a, iss.assignee = some a → a ∈ p.member) := by
  refine ⟨?_, ?_, ?_, ?_, ?_, ?_⟩
  · intro hm ht hnm
    unfold createIssue
    simp [hm, ht, hnm]
  · intro iss h a ha
    unfold createIssue at h
    by_cases h1 : caller.id ∈ p.member
    · by_cases h2 : jsTruthy assignee
      · by_cases h3 : assignee.getD "" ∈ p.member
        · simp [h1, h2, h3] at h
          rw [← h] at ha
          simp [h2] at ha
          rw [← ha]
          exact h3
        · simp [h1, h2, h3] at h
      · simp only [Bool.not_eq_true] at h2
        simp [h1, h2] at h
        rw [← h] at ha
        simp [h2] at ha
    · simp [h1] at h
  · intro hm hactor ht hnm
    unfold updateIssue
    simp [hm, hactor, ht, hnm]
  · intro iss h ht
    unfold updateIssue at h
    by_cases h1 : caller.id ∈ p.member
    · by_cases h2 : (p.owner == caller.id || issue.reporter == caller.id
          || issue.assignee == some caller.id) = true
      · by_cases h3 : nestedVal uassignee ∈ p.member
        · simp [h1, h2, ht, h3] at h
          rw [← h]
          refine ⟨?_, h3⟩
          cases huas : uassignee with
          | none => rw [huas] at ht; simp [jsTruthyNested] at ht
          | some v =>
            cases v with
            | none => rw [huas] at ht; simp [jsTruthyNested] at ht
            | some s => simp [huas, nestedVal]
        · simp [h1, h2, ht, h3] at h
      · simp [h1, h2] at h
    · simp [h1] at h
  · intro hm ht hnm
    unfold assignIssue
    simp [hm, ht, hnm]
  · intro iss h a ha
    unfold assignIssue at h
    by_cases h1 : caller.id ∈ p.member
    · by_cases h2 : jsTruthy (jsOrOpt aId aBody)
      · by_cases h3 : (jsOrOpt aId aBody).getD "" ∈ p.member
        · simp [h1, h2, h3] at h
          rw [← h] at ha
          simp [h2] at ha
          rw [← ha]
          exact h3
        · simp [h1, h2, h3] at h
      · simp only [Bool.not_eq_true] at h2
        simp [h1, h2] at h
        rw [← h] at ha
        simp [h2] at ha
    · simp [h1] at h

/-- Witness for C2: a concrete non-member assignee is rejected with 400 by
`createIssue`, and a concrete successful `assignIssue` lands on a member. -/
theorem assignee_member_checked_witness :
    (createIssue ⟨"p1", "N", "D", "K", "o", ["o", "m"], []⟩ ⟨"m", "m@x"⟩ "T" "D"
        none (some "z") none none [] "i1"
      = (.error ⟨400, "Assignee must be a project member"⟩, [])) ∧
    ((⟨"i1", "K-1", "T", "D", "todo", "medium", "m", some "o", "p1", [], none, [], []⟩ :
        Issue).assignee = some "o" →
      "o" ∈ (⟨"p1", "N", "D", "K", "o", ["o", "m"], []⟩ : Project).member) := by
  constructor
  · exact (assignee_member_checked ⟨"p1", "N", "D", "K", "o", ["o", "m"], []⟩
      ⟨"i1", "K-1", "T", "D", "todo", "medium", "m", some "o", "p1", [], none, [], []⟩
      ⟨"m", "m@x"⟩ "T" "D" none (some "z") none none [] "i1"
      none none none none none none none none none).1 (by decide) (by decide) (by decide)
  · intro h
    exact (assignee_member_checked ⟨"p1", "N", "D", "K", "o", ["o", "m"], []⟩
      ⟨"i1", "K-1", "T", "D", "todo", "medium", "m", some "o", "p1", [], none, [], []⟩
      ⟨"m", "m@x"⟩ "T" "D" none (some "o") none none [] "i1"
      none none none none none none none none (some "o")).2.2.2.2.2
      ⟨"i1", "K-1", "T", "D", "todo", "medium", "m", some "o", "p1", [], none, [], []⟩
      (by decide) "o" h

/-- C3: `updateIssueStatus` succeeds exactly when the caller is the issue's
current assignee and the requested status is one of todo/inprogress/done; a
non-assignee caller (project owner and reporter included) gets Forbidden, an
assignee caller with a status outside the enum gets BadRequest, and on both
failures the issue is unchanged. -/
theorem status_update_assignee_only (issue : Issue) (caller : UserCtx) (stat : String) :
    ((∃ iss, (updateIssueStatus issue caller stat).1 = .ok iss) ↔
      (issue.assignee = some caller.id ∧
        stat ∈ (["todo", "inprogress", "done"] : List String))) ∧
    (issue.assignee ≠ some caller.id →
      updateIssueStatus issue caller stat =
        (.error ⟨403, "Access denied - Only the assignee can update the status"⟩, issue)) ∧
    (issue.assignee = some caller.id →
      stat ∉ (["todo", "inprogress", "done"] : List String) →
      updateIssueStatus issue caller stat = (.error ⟨400, "Invalid status value"⟩, issue)) ∧
    (∀ iss, (updateIssueStatus issue caller stat).1 = .ok iss →
      iss = { issue with status := stat } ∧
      (updateIssueStatus issue caller stat).2 = iss) := by
  refine ⟨?_, ?_, ?_, ?_⟩
  · constructor
    · rintro ⟨iss, h⟩
      unfold updateIssueStatus at h
      cases hA : issue.assignee with
      | none => rw [hA] at h; simp at h
      | some a =>
        rw [hA] at h
        by_cases h1 : a = caller.id
        · subst h1
          by_cases h2 : stat ∈ (["todo", "inprogress", "done"] : List String)
          · exact ⟨rfl, h2⟩
          · simp [h2] at h
        · simp [h1] at h
    · rintro ⟨h1, h2⟩
      unfold updateIssueStatus
      rw [h1]
      simp [h2]
  · intro h1
    unfold updateIssueStatus
    cases hA : issue.assignee with
    | none => rfl
    | some a =>
      rw [hA] at h1
      have : a ≠ caller.id := by intro hc; rw [hc] at h1; exact h1 rfl
      simp [this]
  · intro h1 h2
    unfold updateIssueStatus
    rw [h1]
    simp [h2]
  · intro iss h
    unfold updateIssueStatus at h ⊢
    cases hA : issue.assignee with
    | none => rw [hA] at h; simp at h
    | some a =>
      rw [hA] at h
      by_cases h1 : a = caller.id
      · subst h1
        by_cases h2 : stat ∈ (["todo", "inprogress", "done"] : List String)
        · simp [h2] at h ⊢
          exact ⟨h.symm, h⟩
        · simp [h2] at h
      · simp [h1] at h

/-- Witness for C3: with a concrete issue assigned to user a, the reporter's
status-update attempt returns 403 and the issue is unchanged, while the
assignee's attempt with a valid status succeeds. -/
theorem status_update_assignee_only_witness :
    (updateIssueStatus
        ⟨"i1", "K-1", "T", "D", "todo", "medium", "r", some "a", "p1", [], none, [], []⟩
        ⟨"r", "r@x"⟩ "done"
      = (.error ⟨403, "Access denied - Only the assignee can update the status"⟩,
         ⟨"i1", "K-1", "T", "D", "todo", "medium", "r", some "a", "p1", [], none, [], []⟩)) ∧
    (∃ iss, (updateIssueStatus
        ⟨"i1", "K-1", "T", "D", "todo", "medium", "r", some "a", "p1", [], none, [], []⟩
        ⟨"a", "a@x"⟩ "done").1 = .ok iss) := by
  constructor
  · exact (status_update_assignee_only
      ⟨"i1", "K-1", "T", "D", "todo", "medium", "r", some "a", "p1", [], none, [], []⟩
      ⟨"r", "r@x"⟩ "done").2.1 (by decide)
  · exact (status_update_assignee_only
      ⟨"i1", "K-1", "T", "D", "todo", "medium", "r", some "a", "p1", [], none, [], []⟩
      ⟨"a", "a@x"⟩ "done").1.mpr ⟨rfl, by decide⟩

/-- C4 counterexample: a user who is a project member but neither the owner,
nor the reporter, nor the current assignee sends a reassign request to a
current member through the deployed `PUT /issues/:id/assign` pipeline, and the
request is rejected with Forbidden by `checkIssuePermission` instead of
succeeding. -/
theorem assign_any_member_counterexample :
    "m" ∈ (⟨"p1", "N", "D", "K", "o", ["o", "r", "a", "m"], []⟩ : Project).member ∧
    "m" ≠ (⟨"p1", "N", "D", "K", "o", ["o", "r", "a", "m"], []⟩ : Project).owner ∧
    "m" ≠ (⟨"i1", "K-1", "T", "D", "todo", "medium", "r", some "a", "p1", [], none, [], []⟩ :
      Issue).reporter ∧
    (⟨"i1", "K-1", "T", "D", "todo", "medium", "r", some "a", "p1", [], none, [], []⟩ :
      Issue).assignee ≠ some "m" ∧
    "r" ∈ (⟨"p1", "N", "D", "K", "o", ["o", "r", "a", "m"], []⟩ : Project).member ∧
    assignIssueRoute ⟨"p1", "N", "D", "K", "o", ["o", "r", "a", "m"], []⟩
        ⟨"i1", "K-1", "T", "D", "todo", "medium", "r", some "a", "p1", [], none, [], []⟩
        ⟨"m", "m@x"⟩ (some "r") none =
      (.error ⟨403,
        "Access denied - Only project owner, reporter, or assignee can modify this issue"⟩,
       ⟨"i1", "K-1", "T", "D", "todo", "medium", "r", some "a", "p1", [], none, [], []⟩) := by
  decide

/-- C4 amended: the `assignIssue` controller body requires only membership of
the caller, but the route mounts `checkIssuePermission`, so through the
endpoint a member who is neither the project owner, the reporter, nor the
current assignee is denied with Forbidden before the controller runs; a
member who is owner, reporter, or current assignee can reassign to a current
member or to null, and the controller alone would indeed accept any member. -/
theorem assign_route_requires_issue_actor
    (p : Project) (issue : Issue) (caller : UserCtx) (aId aBody : Option String)
    (hm : caller.id ∈ p.member) :
    ((p.owner == caller.id || issue.reporter == caller.id
        || issue.assignee == some caller.id) = false →
      assignIssueRoute p issue caller aId aBody =
        (.error ⟨403,
          "Access denied - Only project owner, reporter, or assignee can modify this issue"⟩,
         issue)) ∧
    ((p.owner == caller.id || issue.reporter == caller.id
        || issue.assignee == some caller.id) = true →
      (jsTruthy (jsOrOpt aId aBody) = false ∨ (jsOrOpt aId aBody).getD "" ∈ p.member) →
      assignIssueRoute p issue caller aId aBody =
        (.ok { issue with assignee := if jsTruthy (jsOrOpt aId aBody)
                 then some ((jsOrOpt aId aBody).getD "") else none },
         { issue with assignee := if jsTruthy (jsOrOpt aId aBody)
                 then some ((jsOrOpt aId aBody).getD "") else none })) ∧
    ((jsTruthy (jsOrOpt aId aBody) = false ∨ (jsOrOpt aId aBody).getD "" ∈ p.member) →
      assignIssue p issue caller aId aBody =
        (.ok { issue with assignee := if jsTruthy (jsOrOpt aId aBody)
                 then some ((jsOrOpt aId aBody).getD "") else none },
         { issue with assignee := if jsTruthy (jsOrOpt aId aBody)
                 then some ((jsOrOpt aId aBody).getD "") else none })) := by
  refine ⟨?_, ?_, ?_⟩
  · intro hact
    unfold assignIssueRoute checkIssuePermission
    simp [hm, hact]
  · intro hact htar
    unfold assignIssueRoute checkIssuePermission assignIssue
    by_cases ht : jsTruthy (jsOrOpt aId aBody)
    · have hmem : (jsOrOpt aId aBody).getD "" ∈ p.member := by
        rcases htar with h | h
        · rw [ht] at h; cases h
        · exact h
      simp [hm, hact, ht, hmem]
    · simp [hm, hact, ht]
  · intro htar
    unfold assignIssue
    by_cases ht : jsTruthy (jsOrOpt aId aBody)
    · have hmem : (jsOrOpt aId aBody).getD "" ∈ p.member := by
        rcases htar with h | h
        · rw [ht] at h; cases h
        · exact h
      simp [hm, ht, hmem]
    · simp [hm, ht]

/-- Witness for the amended C4: the project owner reassigns the issue to
member m through the route pipeline and succeeds, while the denial conjunct
fires for plain member m. -/
theorem assign_route_requires_issue_actor_witness :
    (assignIssueRoute ⟨"p1", "N", "D", "K", "o", ["o", "r", "a", "m"], []⟩
        ⟨"i1", "K-1", "T", "D", "todo", "medium", "r", some "a", "p1", [], none, [], []⟩
        ⟨"o", "o@x"⟩ (some "m") none =
      (.ok ⟨"i1", "K-1", "T", "D", "todo", "medium", "r", some "m", "p1", [], none, [], []⟩,
       ⟨"i1", "K-1", "T", "D", "todo", "medium", "r", some "m", "p1", [], none, [], []⟩)) ∧
    (assignIssueRoute ⟨"p1", "N", "D", "K", "o", ["o", "r", "a", "m"], []⟩
        ⟨"i1", "K-1", "T", "D", "todo", "medium", "r", some "a", "p1", [], none, [], []⟩
        ⟨"m", "m@x"⟩ none none =
      (.error ⟨403,
        "Access denied - Only project owner, reporter, or assignee can modify this issue"⟩,
       ⟨"i1", "K-1", "T", "D", "todo", "medium", "r", some "a", "p1", [], none, [], []⟩)) := by
  constructor
  · exact (assign_route_requires_issue_actor
      ⟨"p1", "N", "D", "K", "o", ["o", "r", "a", "m"], []⟩
      ⟨"i1", "K-1", "T", "D", "todo", "medium", "r", some "a", "p1", [], none, [], []⟩
      ⟨"o", "o@x"⟩ (some "m") none (by decide)).2.1 (by decide) (by decide)
  · exact (assign_route_requires_issue_actor
      ⟨"p1", "N", "D", "K", "o", ["o", "r", "a", "m"], []⟩
      ⟨"i1", "K-1", "T", "D", "todo", "medium", "r", some "a", "p1", [], none, [], []⟩
      ⟨"m", "m@x"⟩ none none (by decide)).1 (by decide)

/-- C5: `acceptInvitation` with a token whose first matching invite is
unexpired but addressed to a different (case-sensitively compared) email
fails with Forbidden and returns the project unchanged, the pending invite
still in place for a retry by the right user. -/
theorem accept_email_mismatch_forbidden
    (p : Project) (u : UserCtx) (token : String) (now : Nat) (inv : Invite)
    (hfind : p.pendingInvites.find? (fun i => i.token == token) = some inv)
    (hexp : now < inv.expiresAt)
    (hmail : inv.email ≠ u.email) :
    acceptInvitation p u token now =
      (.error ⟨403, "This invitation is not for your email address"⟩, p) := by
  have hmem : inv ∈ p.pendingInvites := List.mem_of_find?_eq_some hfind
  have htok := List.find?_some hfind
  have hany1 : p.pendingInvites.any (fun i => i.token == token) = true :=
    List.any_eq_true.mpr ⟨inv, hmem, htok⟩
  have hany2 : p.pendingInvites.any (fun i => decide (now < i.expiresAt)) = true :=
    List.any_eq_true.mpr ⟨inv, hmem, by simpa using hexp⟩
  unfold acceptInvitation
  rw [hfind]
  simp [hany1, hany2, hmail]

/-- Witness for C5: the invite was stored with email Bob@x.com; the user
accepting with the lower-cased email bob@x.com is rejected with 403 and the
invite stays pending. -/
theorem accept_email_mismatch_forbidden_witness :
    acceptInvitation
        ⟨"p1", "N", "D", "K", "o", ["o"], [⟨"Bob@x.com", "developer", "o", "tok", 100⟩]⟩
        ⟨"b", "bob@x.com"⟩ "tok" 50 =
      (.error ⟨403, "This invitation is not for your email address"⟩,
       ⟨"p1", "N", "D", "K", "o", ["o"], [⟨"Bob@x.com", "developer", "o", "tok", 100⟩]⟩) :=
  accept_email_mismatch_forbidden
    ⟨"p1", "N", "D", "K", "o", ["o"], [⟨"Bob@x.com", "developer", "o", "tok", 100⟩]⟩
    ⟨"b", "bob@x.com"⟩ "tok" 50 ⟨"Bob@x.com", "developer", "o", "tok", 100⟩
    (by decide) (by decide) (by decide)

/-- Counting helper: the pre-save hook does not change the multiplicity of an
id that is already in the member list. -/
theorem count_saveProject_member (q : Project) (x : String) (hx : x ∈ q.member) :
    List.count x (saveProject q).member = List.count x q.member := by
  unfold saveProject
  split
  · rfl
  · next h =>
    have how : q.owner ∉ q.member := by simpa using h
    have hne : x ≠ q.owner := fun he => how (he ▸ hx)
    exact List.count_cons_of_ne hne _

/-- Lookup helper: when no pending invite carries the token,
`acceptInvitation` fails with 400 and leaves the project unchanged. -/
theorem accept_no_token (q : Project) (u' : UserCtx) (token : String) (now'' : Nat)
    (h : q.pendingInvites.any (fun inv => inv.token == token) = false) :
    acceptInvitation q u' token now'' =
      (.error ⟨400, "Invalid or expired invitation token"⟩, q) := by
  unfold acceptInvitation
  simp [h]

/-- C6: a successful `acceptInvitation` consumes its token: the accepting
user ends up in the member list with multiplicity grown only when the user
was absent, no invite carrying the token survives, and a second call with
the same token fails with the same BadRequest as an unknown or expired token
and leaves the state unchanged. -/
theorem accept_consumes_token
    (p : Project) (u : UserCtx) (token : String) (now : Nat) (p' : Project)
    (hok : (acceptInvitation p u token now).1 = .ok p') :
    (acceptInvitation p u token now).2 = p' ∧
    (List.count u.id p'.member =
      if u.id ∈ p.member then List.count u.id p.member
      else List.count u.id p.member + 1) ∧
    (∀ inv ∈ p'.pendingInvites, inv.token ≠ token) ∧
    (∀ u' now'', acceptInvitation p' u' token now'' =
      (.error ⟨400, "Invalid or expired invitation token"⟩, p')) := by
  unfold acceptInvitation at hok
  by_cases hc : ((p.pendingInvites.any fun inv => inv.token == token)
      && p.pendingInvites.any fun inv => decide (now < inv.expiresAt)) = true
  case neg => simp [hc] at hok
  case pos =>
  cases hfind : p.pendingInvites.find? (fun inv => inv.token == token) with
  | none => rw [hfind] at hok; simp [hc] at hok
  | some invite =>
    rw [hfind] at hok
    by_cases hem : invite.email ≠ u.email
    · simp [hc, hem] at hok
    · simp [hc, hem] at hok
      subst hok
      refine ⟨?_, ?_, ?_, ?_⟩
      · unfold acceptInvitation
        rw [hfind]
        simp [hc, hem]
      · by_cases hmem : u.id ∈ p.member
        · simp only [hmem, if_true]
          rw [count_saveProject_member _ _ (by simpa using hmem)]
        · simp only [hmem, if_false]
          rw [count_saveProject_member _ _ (by simp [hmem])]
          simp [List.count_append, List.count_singleton]
      · intro inv hinv
        rw [saveProject_pendingInvites] at hinv
        have h2 := (List.mem_filter.mp hinv).2
        simpa using h2
      · intro u' now''
        apply accept_no_token
        rw [saveProject_pendingInvites]
        rw [List.any_eq_false]
        intro inv hinv
        have h2 := (List.mem_filter.mp hinv).2
        simpa using h2

/-- Witness for C6 on a concrete project: after bob accepts his invite, his
multiplicity in the member list is as stated and a second accept with the
consumed token fails with 400 without changing the state. -/
theorem accept_consumes_token_witness :
    (List.count "b" (["o", "b"] : List String) =
      if "b" ∈ (["o"] : List String) then List.count "b" (["o"] : List String)
      else List.count "b" (["o"] : List String) + 1) ∧
    acceptInvitation ⟨"p1", "N", "D", "K", "o", ["o", "b"], []⟩ ⟨"b", "b@x"⟩ "tok" 50 =
      (.error ⟨400, "Invalid or expired invitation token"⟩,
       ⟨"p1", "N", "D", "K", "o", ["o", "b"], []⟩) := by
  have h := accept_consumes_token
    ⟨"p1", "N", "D", "K", "o", ["o"], [⟨"b@x", "developer", "o", "tok", 100⟩]⟩
    ⟨"b", "b@x"⟩ "tok" 50 ⟨"p1", "N", "D", "K", "o", ["o", "b"], []⟩ (by decide)
  exact ⟨h.2.1, h.2.2.2 ⟨"b", "b@x"⟩ 50⟩

/-- C7: `inviteMember` is compensated on email failure: with a fresh token,
when the email send fails the final stored pendingInvites list equals the one
before the call (on every path, pre-check failure or rollback), the 500 error
surfaces when all pre-checks pass, and on email success the appended invite
(with its token and 7-day expiry) remains pending. -/
theorem invite_rollback_on_email_failure
    (p : Project) (caller : UserCtx) (email : String) (role : Option String)
    (existingUser : Option String) (token : String) (now : Nat)
    (hfresh : ∀ inv ∈ p.pendingInvites, inv.token ≠ token) :
    ((inviteMember p caller email role existingUser token now false).2.pendingInvites
      = p.pendingInvites) ∧
    (p.owner = caller.id →
      (∀ uid, existingUser = some uid → uid ∉ p.member) →
      (∀ inv ∈ p.pendingInvites, inv.email ≠ email) →
      (inviteMember p caller email role existingUser token now false).1
        = .error ⟨500, "Failed to send invitation email"⟩) ∧
    ((inviteMember p caller email role existingUser token now true).1 = .ok () →
      (inviteMember p caller email role existingUser token now true).2.pendingInvites
        = p.pendingInvites ++ [⟨email, jsOr role "developer", caller.id, token,
            now + 7 * 24 * 60 * 60 * 1000⟩]) := by
  have hfilter : p.pendingInvites.filter (fun inv => inv.token ≠ token)
      = p.pendingInvites :=
    List.filter_eq_self.mpr (fun a ha => by simpa using hfresh a ha)
  refine ⟨?_, ?_, ?_⟩
  · unfold inviteMember
    split
    · rfl
    · split
      · rfl
      · split
        · rfl
        · simp only [Bool.false_eq_true, if_false]
          rw [saveProject_pendingInvites, saveProject_pendingInvites,
            List.filter_append, hfilter]
          have h2 : ([mkInvite email (jsOr role "developer") caller.id token now].filter
              (fun inv => inv.token ≠ token)) = [] := by simp [mkInvite]
          rw [h2, List.append_nil]
  · intro how hnm hni
    have c3 : p.pendingInvites.find? (fun inv => inv.email == email) = none := by
      cases hfd : p.pendingInvites.find? (fun inv => inv.email == email) with
      | none => rfl
      | some inv =>
        exact absurd (by simpa using List.find?_some hfd)
          (hni inv (List.mem_of_find?_eq_some hfd))
    unfold inviteMember
    cases existingUser with
    | none => simp [how, c3]
    | some uid =>
      have hun : uid ∉ p.member := hnm uid rfl
      simp [how, hun, c3]
  · intro hok1
    unfold inviteMember at hok1 ⊢
    by_cases c1 : p.owner ≠ caller.id
    · simp [c1] at hok1
    · cases existingUser with
      | some uid =>
        by_cases c2 : uid ∈ p.member
        · simp [c1, c2] at hok1
        · by_cases c3 : (p.pendingInvites.find? (fun inv => inv.email == email)).isSome
          · simp [c1, c2, c3] at hok1
          · simp [c1, c2, c3, mkInvite, saveProject_pendingInvites]
      | none =>
        by_cases c3 : (p.pendingInvites.find? (fun inv => inv.email == email)).isSome
        · simp [c1, c3] at hok1
        · simp [c1, c3, mkInvite, saveProject_pendingInvites]

/-- Witness for C7 on a concrete empty-invite project: the failed-email call
leaves pendingInvites empty and surfaces the 500, while the successful call
leaves exactly the new invite with its 7-day expiry. -/
theorem invite_rollback_on_email_failure_witness :
    ((inviteMember ⟨"p1", "N", "D", "K", "o", ["o"], []⟩ ⟨"o", "o@x"⟩ "b@x" none none
        "tok" 0 false).2.pendingInvites = []) ∧
    ((inviteMember ⟨"p1", "N", "D", "K", "o", ["o"], []⟩ ⟨"o", "o@x"⟩ "b@x" none none
        "tok" 0 false).1 = .error ⟨500, "Failed to send invitation email"⟩) ∧
    ((inviteMember ⟨"p1", "N", "D", "K", "o", ["o"], []⟩ ⟨"o", "o@x"⟩ "b@x" none none
        "tok" 0 true).2.pendingInvites
      = [⟨"b@x", "developer", "o", "tok", 604800000⟩]) := by
  have h := invite_rollback_on_email_failure ⟨"p1", "N", "D", "K", "o", ["o"], []⟩
    ⟨"o", "o@x"⟩ "b@x" none none "tok" 0 (by simp)
  exact ⟨h.1, h.2.1 rfl (by simp) (by simp), h.2.2 (by decide)⟩

/-- C8: `deleteIssue` invoked by the project owner or the issue's reporter
succeeds and cascades: afterwards no Comment with this issueId remains and no
Attachment whose id was in `issue.attachments` remains, while every
attachment outside that list (in particular one referenced only from a
deleted comment's attachment list) survives. -/
theorem delete_issue_cascade
    (p : Project) (issue : Issue) (caller : UserCtx) (st : Store)
    (hperm : p.owner = caller.id ∨ issue.reporter = caller.id) :
    ∃ st', deleteIssue p issue caller st = (.ok (), st') ∧
      (∀ c ∈ st'.comments, c.issueId ≠ issue.id) ∧
      (∀ a ∈ st'.attachments, a.id ∉ issue.attachments) ∧
      (∀ a ∈ st.attachments, a.id ∉ issue.attachments → a ∈ st'.attachments) ∧
      (∀ c ∈ st.comments, c.issueId ≠ issue.id → c ∈ st'.comments) := by
  have hcond : (p.owner == caller.id || issue.reporter == caller.id) = true := by
    rcases hperm with h | h <;> simp [h]
  refine ⟨{ issues := st.issues.filter (fun i => i.id ≠ issue.id),
            comments := st.comments.filter (fun c => c.issueId ≠ issue.id),
            attachments := st.attachments.filter
              (fun a => ¬ issue.attachments.contains a.id) },
    ?_, ?_, ?_, ?_, ?_⟩
  · unfold deleteIssue
    simp [hcond]
  · intro c hc
    have h2 := (List.mem_filter.mp hc).2
    simpa using h2
  · intro a ha
    have h2 := (List.mem_filter.mp ha).2
    simpa using h2
  · intro a ha hna
    exact List.mem_filter.mpr ⟨ha, by simpa using hna⟩
  · intro c hc hnc
    exact List.mem_filter.mpr ⟨hc, by simpa using hnc⟩

/-- Witness for C8: the reporter deletes a concrete issue; its comment and
its listed attachment disappear while the comment-only attachment a2 and the
unrelated comment c2 survive. -/
theorem delete_issue_cascade_witness :
    ∃ st', deleteIssue ⟨"p1", "N", "D", "K", "o", ["o", "r"], []⟩
        ⟨"i1", "K-1", "T", "D", "todo", "medium", "r", none, "p1", [], none, ["a1"], ["c1"]⟩
        ⟨"r", "r@x"⟩
        ⟨[⟨"i1", "K-1", "T", "D", "todo", "medium", "r", none, "p1", [], none, ["a1"], ["c1"]⟩],
         [⟨"c1", "o", "i1", ["a2"]⟩, ⟨"c2", "o", "i2", []⟩],
         [⟨"a1", "u"⟩, ⟨"a2", "u"⟩]⟩ = (.ok (), st') ∧
      (∀ c ∈ st'.comments, c.issueId ≠ "i1") ∧
      (∀ a ∈ st'.attachments, a.id ∉ (["a1"] : List String)) ∧
      (∀ a ∈ ([⟨"a1", "u"⟩, ⟨"a2", "u"⟩] : List Attachment),
        a.id ∉ (["a1"] : List String) → a ∈ st'.attachments) ∧
      (∀ c ∈ ([⟨"c1", "o", "i1", ["a2"]⟩, ⟨"c2", "o", "i2", []⟩] : List Comment),
        c.issueId ≠ "i1" → c ∈ st'.comments) :=
  delete_issue_cascade ⟨"p1", "N", "D", "K", "o", ["o", "r"], []⟩
    ⟨"i1", "K-1", "T", "D", "todo", "medium", "r", none, "p1", [], none, ["a1"], ["c1"]⟩
    ⟨"r", "r@x"⟩
    ⟨[⟨"i1", "K-1", "T", "D", "todo", "medium", "r", none, "p1", [], none, ["a1"], ["c1"]⟩],
     [⟨"c1", "o", "i1", ["a2"]⟩, ⟨"c2", "o", "i2", []⟩],
     [⟨"a1", "u"⟩, ⟨"a2", "u"⟩]⟩ (Or.inr rfl)

/-- C9: a successful `createIssue` gives the new issue the key
`"{project.key}-{N+1}"`, where N is the number of stored issues whose
projectId is this project's at call time, and appends the issue to the
store. -/
theorem issue_key_sequential
    (p : Project) (caller : UserCtx) (ttl ds : String)
    (priority assignee : Option String) (tags : Option (List String))
    (dueDate : Option Nat) (issues : List Issue) (newId : String)
    (iss : Issue) (rest : List Issue)
    (h : createIssue p caller ttl ds priority assignee tags dueDate issues newId
          = (.ok iss, rest)) :
    iss.key = p.key ++ "-" ++
      toString ((issues.filter (fun i => i.projectId == p.id)).length + 1) ∧
    rest = issues ++ [iss] := by
  unfold createIssue at h
  split at h
  · simp at h
  · split at h
    · simp at h
    · simp at h
      obtain ⟨hiss, hrest⟩ := h
      constructor
      · rw [← hiss]
      · rw [← hrest, ← hiss]

/-- Witness for C9: in a fresh project with key DEMO the first create yields
key DEMO-1 and the second yields DEMO-2. -/
theorem issue_key_sequential_witness :
    (⟨"i1", "DEMO-1", "T1", "D1", "todo", "medium", "u", none, "p1", [], none, [], []⟩ :
      Issue).key = "DEMO-1" ∧
    (⟨"i2", "DEMO-2", "T2", "D2", "todo", "medium", "u", none, "p1", [], none, [], []⟩ :
      Issue).key = "DEMO-2" := by
  have h1 := issue_key_sequential ⟨"p1", "N", "D", "DEMO", "u", ["u"], []⟩ ⟨"u", "u@x"⟩
    "T1" "D1" none none none none [] "i1"
    ⟨"i1", "DEMO-1", "T1", "D1", "todo", "medium", "u", none, "p1", [], none, [], []⟩
    [⟨"i1", "DEMO-1", "T1", "D1", "todo", "medium", "u", none, "p1", [], none, [], []⟩]
    (by decide)
  have h2 := issue_key_sequential ⟨"p1", "N", "D", "DEMO", "u", ["u"], []⟩ ⟨"u", "u@x"⟩
    "T2" "D2" none none none none
    [⟨"i1", "DEMO-1", "T1", "D1", "todo", "medium", "u", none, "p1", [], none, [], []⟩] "i2"
    ⟨"i2", "DEMO-2", "T2", "D2", "todo", "medium", "u", none, "p1", [], none, [], []⟩
    [⟨"i1", "DEMO-1", "T1", "D1", "todo", "medium", "u", none, "p1", [], none, [], []⟩,
     ⟨"i2", "DEMO-2", "T2", "D2", "todo", "medium", "u", none, "p1", [], none, [], []⟩]
    (by decide)
  exact ⟨h1.1.trans (by decide), h2.1.trans (by decide)⟩

/-- C10: the delete-permission gate authorizes exactly the project owner or
the issue reporter, with no membership precondition, so a reporter removed
from the member list can still delete the issue, while the same user is
turned away by `checkIssuePermission` — the gate of `updateIssue` — which
checks membership first. -/
theorem delete_permission_without_membership
    (p : Project) (issue : Issue) (u : UserCtx) (st : Store) :
    ((checkIssueDeletePermission p issue u = .ok ()) ↔
      (p.owner = u.id ∨ issue.reporter = u.id)) ∧
    (u.id ∉ p.member →
      checkIssuePermission p issue u "PUT" =
        .error ⟨403, "Access denied - Not a project member"⟩) ∧
    (issue.reporter = u.id → u.id ∉ p.member →
      checkIssueDeletePermission p issue u = .ok () ∧
      ∃ st', deleteIssue p issue u st = (.ok (), st')) := by
  refine ⟨?_, ?_, ?_⟩
  · unfold checkIssueDeletePermission
    constructor
    · intro h
      by_cases hc : (p.owner == u.id || issue.reporter == u.id) = true
      · simpa using hc
      · simp [hc] at h
    · intro h
      have hc : (p.owner == u.id || issue.reporter == u.id) = true := by
        rcases h with h | h <;> simp [h]
      simp [hc]
  · intro h
    unfold checkIssuePermission
    simp [h]
  · intro hrep hnm
    refine ⟨?_, ⟨{ issues := st.issues.filter (fun i => i.id ≠ issue.id),
                   comments := st.comments.filter (fun c => c.issueId ≠ issue.id),
                   attachments := st.attachments.filter
                     (fun a => ¬ issue.attachments.contains a.id) }, ?_⟩⟩
    · unfold checkIssueDeletePermission
      simp [hrep]
    · unfold deleteIssue
      simp [hrep]

/-- Witness for C10: reporter r has been removed from the member list of a
concrete project; the delete gate lets r through (and the delete succeeds)
while the update gate rejects r as not a member. -/
theorem delete_permission_without_membership_witness :
    (checkIssueDeletePermission ⟨"p1", "N", "D", "K", "o", ["o"], []⟩
        ⟨"i1", "K-1", "T", "D", "todo", "medium", "r", none, "p1", [], none, [], []⟩
        ⟨"r", "r@x"⟩ = .ok () ∧
      ∃ st', deleteIssue ⟨"p1", "N", "D", "K", "o", ["o"], []⟩
        ⟨"i1", "K-1", "T", "D", "todo", "medium", "r", none, "p1", [], none, [], []⟩
        ⟨"r", "r@x"⟩ ⟨[], [], []⟩ = (.ok (), st')) ∧
    checkIssuePermission ⟨"p1", "N", "D", "K", "o", ["o"], []⟩
        ⟨"i1", "K-1", "T", "D", "todo", "medium", "r", none, "p1", [], none, [], []⟩
        ⟨"r", "r@x"⟩ "PUT" =
      .error ⟨403, "Access denied - Not a project member"⟩ := by
  have h := delete_permission_without_membership ⟨"p1", "N", "D", "K", "o", ["o"], []⟩
    ⟨"i1", "K-1", "T", "D", "todo", "medium", "r", none, "p1", [], none, [], []⟩
    ⟨"r", "r@x"⟩ ⟨[], [], []⟩
  exact ⟨h.2.2 rfl (by decide), h.2.1 (by decide)⟩

end PMServer
